import Mathlib

/-!
Verification development for the Cellars.me inventory persistence and
catalog-synchronization layer (`server/storage.ts`, `shared/schema.ts`).

The inventory store is embedded as pure functions over an explicit backend
state (`List WineRow`), mirroring the current `DatabaseStorage`
implementation: the dynamic parameterized single-statement UPDATE for
`updateWine`, `and(eq(id), eq(userId))` ownership scoping on every
operation, and the count-gated CSV catalog importer.  Machine `ILIKE`
matching is embedded as a recursive pattern matcher with `%`/`_`
wildcards and case-insensitive literal comparison.
-/

/-- One `{vintage, stock}` element of the `vintage_stocks` json column
(`VintageStock` in `shared/schema.ts`). -/
structure VintageStock where
  vintage : Int
  stock : Int
deriving DecidableEq

/-- A stored row of the `wines` table (`Wine` in `shared/schema.ts`):
serial id, owning user, the twelve mutable content fields, and the
server-assigned creation timestamp (modelled as a `Nat` ordinal). -/
structure WineRow where
  id : Nat
  userId : String
  name : String
  category : String
  wine : Option String
  subType : Option String
  producer : Option String
  region : Option String
  country : Option String
  stockLevel : Int
  vintageStocks : List VintageStock
  imageUrl : Option String
  rating : Option Int
  notes : Option String
  createdAt : Nat
deriving DecidableEq

/-- A partial update payload (`Partial<InsertWine>`): every field is
optional; `none` is a field that is absent (`undefined`) from the payload,
`some v` a field explicitly present with value `v`.  For nullable columns
the present value is itself an `Option`, so `some none` is an explicit
`null`. -/
structure WinePayload where
  name : Option String := none
  category : Option String := none
  wine : Option (Option String) := none
  subType : Option (Option String) := none
  producer : Option (Option String) := none
  region : Option (Option String) := none
  country : Option (Option String) := none
  stockLevel : Option Int := none
  vintageStocks : Option (List VintageStock) := none
  imageUrl : Option (Option String) := none
  rating : Option (Option Int) := none
  notes : Option (Option String) := none
deriving DecidableEq

/-- One `SET` clause of the dynamically assembled UPDATE statement in
`updateWine` (one constructor per `updates.push(...)` site,
`storage.ts`). -/
inductive FieldUpdate where
  | setName (v : String)
  | setCategory (v : String)
  | setWine (v : Option String)
  | setSubType (v : Option String)
  | setProducer (v : Option String)
  | setRegion (v : Option String)
  | setCountry (v : Option String)
  | setStockLevel (v : Int)
  | setVintageStocks (v : List VintageStock)
  | setImageUrl (v : Option String)
  | setRating (v : Option Int)
  | setNotes (v : Option String)
deriving DecidableEq

/-- Semantics of `if (wine.f !== undefined) updates.push(...)`: an absent field
contributes no clause, a present one contributes exactly one. -/
def pushIf (o : Option α) (f : α → FieldUpdate) : List FieldUpdate :=
  match o with
  | none => []
  | some v => [f v]

/-- The `updates` list built by the twelve sequential
`if (wine.f !== undefined)` checks in `updateWine` (`storage.ts`,
the current dynamic-SQL implementation). -/
def buildUpdates (w : WinePayload) : List FieldUpdate :=
  pushIf w.name .setName ++
  (pushIf w.category .setCategory ++
  (pushIf w.wine .setWine ++
  (pushIf w.subType .setSubType ++
  (pushIf w.producer .setProducer ++
  (pushIf w.region .setRegion ++
  (pushIf w.country .setCountry ++
  (pushIf w.stockLevel .setStockLevel ++
  (pushIf w.vintageStocks .setVintageStocks ++
  (pushIf w.imageUrl .setImageUrl ++
  (pushIf w.rating .setRating ++
  pushIf w.notes .setNotes))))))))))

/-- SQL semantics of a single `col = $n` SET clause applied to a row. -/
def applyUpdate (u : FieldUpdate) (r : WineRow) : WineRow :=
  match u with
  | .setName v => { r with name := v }
  | .setCategory v => { r with category := v }
  | .setWine v => { r with wine := v }
  | .setSubType v => { r with subType := v }
  | .setProducer v => { r with producer := v }
  | .setRegion v => { r with region := v }
  | .setCountry v => { r with country := v }
  | .setStockLevel v => { r with stockLevel := v }
  | .setVintageStocks v => { r with vintageStocks := v }
  | .setImageUrl v => { r with imageUrl := v }
  | .setRating v => { r with rating := v }
  | .setNotes v => { r with notes := v }

/-- Applying the whole assembled SET clause list, left to right. -/
def applyUpdates (l : List FieldUpdate) (r : WineRow) : WineRow :=
  l.foldl (fun acc u => applyUpdate u acc) r

/-- The two equality predicates of the ownership-scoped WHERE clause,
`WHERE id = $n AND user_id = $n+1` (`and(eq(wines.id, id),
eq(wines.userId, userId))`). -/
def rowMatches (r : WineRow) (id : Nat) (userId : String) : Bool :=
  r.id == id && r.userId == userId

/-- Operation `getWines`: `select ... where eq(wines.userId, userId)`. -/
def getWines (s : List WineRow) (userId : String) : List WineRow :=
  s.filter (fun r => r.userId == userId)

/-- Operation `getWineById`: `select ... where and(eq(wines.id, id),
eq(wines.userId, userId))`, first row or `undefined`. -/
def getWineById (s : List WineRow) (id : Nat) (userId : String) : Option WineRow :=
  s.find? (fun r => rowMatches r id userId)

/-- Operation `getWinesByCategory`: `select ... where and(eq(wines.category,
category), eq(wines.userId, userId))`. -/
def getWinesByCategory (s : List WineRow) (category : String) (userId : String) :
    List WineRow :=
  s.filter (fun r => r.category == category && r.userId == userId)

/-- Operation `updateWine` (current implementation, the parameterized
single-statement dynamic UPDATE executed via `pool.query`): if no field
was provided, run `SELECT * FROM wines WHERE id = $1 AND user_id = $2`
and return the current row; otherwise execute one conditional
`UPDATE wines SET ... WHERE id = $n AND user_id = $n+1 RETURNING *` as a
single backend statement.  Returns the new backend state and
`result.rows[0]` (`undefined`, i.e. `none`, when no row matched). -/
def updateWine (s : List WineRow) (id : Nat) (w : WinePayload) (userId : String) :
    List WineRow × Option WineRow :=
  let ups := buildUpdates w
  if ups.isEmpty then
    (s, s.find? (fun r => rowMatches r id userId))
  else
    (s.map (fun r => if rowMatches r id userId then applyUpdates ups r else r),
     (s.find? (fun r => rowMatches r id userId)).map (fun r => applyUpdates ups r))

/-- The sequence of backend states exposed by one `updateWine` call: the
current implementation issues a single statement, so exactly one
transition is visible (contrast with the superseded delete-then-reinsert
draft, which exposed an intermediate state with the row deleted). -/
def updateWineStates (s : List WineRow) (id : Nat) (w : WinePayload) (userId : String) :
    List (List WineRow) :=
  [(updateWine s id w userId).1]

/-- Operation `deleteWine`: `delete ... where and(eq(wines.id, id),
eq(wines.userId, userId))`; the boolean is `rowCount > 0`. -/
def deleteWine (s : List WineRow) (id : Nat) (userId : String) :
    List WineRow × Bool :=
  (s.filter (fun r => !rowMatches r id userId),
   s.any (fun r => rowMatches r id userId))

/-- Derived characterization of the assembled UPDATE: per-field
`getD`-merge keeping id, owner and creation timestamp.  Proven equal to
`applyUpdates (buildUpdates w)` below; not itself part of the embedding. -/
def mergeRow (w : WinePayload) (r : WineRow) : WineRow :=
  { id := r.id
    userId := r.userId
    name := w.name.getD r.name
    category := w.category.getD r.category
    wine := w.wine.getD r.wine
    subType := w.subType.getD r.subType
    producer := w.producer.getD r.producer
    region := w.region.getD r.region
    country := w.country.getD r.country
    stockLevel := w.stockLevel.getD r.stockLevel
    vintageStocks := w.vintageStocks.getD r.vintageStocks
    imageUrl := w.imageUrl.getD r.imageUrl
    rating := w.rating.getD r.rating
    notes := w.notes.getD r.notes
    createdAt := r.createdAt }

/-- A row of the shared `wine_catalog` table (`WineCatalog` in
`shared/schema.ts`): non-null name and category, five nullable
descriptive text columns. -/
structure WineCatalogRow where
  id : Nat
  name : String
  category : String
  wine : Option String
  subType : Option String
  producer : Option String
  region : Option String
  country : Option String
deriving DecidableEq

/-- SQL `LIKE`/`ILIKE` pattern matching over character lists: `%` matches
any (possibly empty) sequence, `_` matches exactly one character, and a
literal pattern character matches case-insensitively (the `I` of
`ILIKE`). -/
def likeMatch : List Char → List Char → Bool
  | [], s => s.isEmpty
  | p :: ps, s =>
    if p = '%' then s.tails.any (fun t => likeMatch ps t)
    else
      match s with
      | [] => false
      | c :: s2 => (p == '_' || p.toLower == c.toLower) && likeMatch ps s2

/-- Predicate `ilike(column, pattern)`: case-insensitive `LIKE` on strings. -/
def ilike (pat s : String) : Bool :=
  likeMatch pat.toList s.toList

/-- Predicate `ilike` applied to a nullable column: `NULL ILIKE p` is `NULL`, so the
row is not selected. -/
def ilikeOpt (pat : String) (o : Option String) : Bool :=
  match o with
  | none => false
  | some s => ilike pat s

/-- Operation `getWineCatalog`: the full catalog dump. -/
def getWineCatalog (c : List WineCatalogRow) : List WineCatalogRow :=
  c

/-- Operation `searchWineCatalog` (current implementation): when `!query.trim()`
(the query is empty or all whitespace) return the full catalog, otherwise
filter by `or(ilike(name, pat), ilike(category, pat), ilike(producer,
pat), ilike(region, pat), ilike(country, pat))` with
`pat = '%' + query + '%'` built from the raw query text. -/
def searchWineCatalog (c : List WineCatalogRow) (query : String) :
    List WineCatalogRow :=
  if query.toList.all Char.isWhitespace then getWineCatalog c
  else
    let searchPattern := "%" ++ query ++ "%"
    c.filter (fun e =>
      ilike searchPattern e.name ||
      (ilike searchPattern e.category ||
      (ilikeOpt searchPattern e.producer ||
      (ilikeOpt searchPattern e.region ||
      ilikeOpt searchPattern e.country))))

/-- A parsed CSV record: a mapping from the column headers the importer
consults to string values; `none` when the column is absent. -/
structure CsvRecord where
  NAME : Option String := none
  nameL : Option String := none
  TYPE : Option String := none
  categoryL : Option String := none
  WINE : Option String := none
  wineL : Option String := none
  SUB_TYPE : Option String := none
  subTypeL : Option String := none
  PRODUCER : Option String := none
  producerL : Option String := none
  REGION : Option String := none
  regionL : Option String := none
  COUNTRY : Option String := none
  countryL : Option String := none
deriving DecidableEq

/-- JavaScript truthiness of an optional string field: `undefined` and
the empty string are falsy, so `a || b` skips them. -/
def truthy (o : Option String) : Option String :=
  match o with
  | none => none
  | some s => if s = "" then none else some s

/-- The per-record field mapping of the count-gated importer
(`record.NAME || record.name || ''`, `record.TYPE || record.category ||
'Other'`, `record.WINE || record.wine || null`, ...), with the serial id
the insert assigns. -/
def mapRecord (id : Nat) (rec : CsvRecord) : WineCatalogRow :=
  { id := id
    name := (truthy rec.NAME <|> truthy rec.nameL).getD ""
    category := (truthy rec.TYPE <|> truthy rec.categoryL).getD "Other"
    wine := truthy rec.WINE <|> truthy rec.wineL
    subType := truthy rec.SUB_TYPE <|> truthy rec.subTypeL
    producer := truthy rec.PRODUCER <|> truthy rec.producerL
    region := truthy rec.REGION <|> truthy rec.regionL
    country := truthy rec.COUNTRY <|> truthy rec.countryL }

/-- Batch insert of the mapped records, assigning consecutive serial
ids starting at `nextId`. -/
def insertAll (nextId : Nat) : List CsvRecord → List WineCatalogRow
  | [] => []
  | rec :: rest => mapRecord nextId rec :: insertAll (nextId + 1) rest

/-- Operation `loadWineCatalogFromCSV` (count-gated importer): count the existing
catalog rows; if the count is positive, skip the whole import and report
zero imported; otherwise map every parsed record and insert all of them.
Returns the new catalog state and the number of imported rows. -/
def loadWineCatalogFromCSV (catalog : List WineCatalogRow)
    (records : List CsvRecord) : List WineCatalogRow × Nat :=
  if catalog.length > 0 then (catalog, 0)
  else
    let entries := insertAll (catalog.length + 1) records
    (catalog ++ entries, entries.length)

/-- The specification's matching notion: the query, compared
case-insensitively, occurs as a literal contiguous substring of the
field. -/
def specContainsCI (q s : String) : Prop :=
  q.toList.map Char.toLower <:+: s.toList.map Char.toLower

instance (q s : String) : Decidable (specContainsCI q s) :=
  List.decidableInfix _ _

/-- The specification's matching notion on a nullable field: a `NULL`
field contains nothing. -/
def specContainsCIOpt (q : String) : Option String → Prop
  | none => False
  | some s => specContainsCI q s

instance (q : String) : (o : Option String) → Decidable (specContainsCIOpt q o)
  | none => isFalse (fun h => h)
  | some s => inferInstanceAs (Decidable (specContainsCI q s))


/-- The specification predicate of the seven-field search claim: the
query case-insensitively occurs in at least one of name, category, wine,
sub-type, producer, region, country. -/
def specMatchesSevenFields (q : String) (e : WineCatalogRow) : Prop :=
  specContainsCI q e.name ∨ specContainsCI q e.category ∨
  specContainsCIOpt q e.wine ∨ specContainsCIOpt q e.subType ∨
  specContainsCIOpt q e.producer ∨ specContainsCIOpt q e.region ∨
  specContainsCIOpt q e.country

instance (q : String) (e : WineCatalogRow) :
    Decidable (specMatchesSevenFields q e) :=
  inferInstanceAs (Decidable (_ ∨ _))

/-- The empty `PATCH` payload `{}`: zero provided fields. -/
def emptyPayload : WinePayload := {}

/-- Concrete fixture: a stored inventory row owned by `"alice"`. -/
def sampleRow : WineRow :=
  { id := 1
    userId := "alice"
    name := "Barolo"
    category := "Red"
    wine := none
    subType := none
    producer := none
    region := none
    country := none
    stockLevel := 2
    vintageStocks := [{ vintage := 2018, stock := 2 }]
    imageUrl := none
    rating := none
    notes := none
    createdAt := 100 }

/-- Concrete fixture: a one-row backend state. -/
def sampleState : List WineRow := [sampleRow]

/-- Concrete fixture: a partial payload with an explicit rating, an
explicit `null` for notes, an explicit zero stock level, and every other
field absent. -/
def samplePayload : WinePayload :=
  { rating := some (some 5), notes := some none, stockLevel := some 0 }

/-- Concrete fixture: `sampleRow` after `samplePayload` is applied. -/
def sampleUpdated : WineRow :=
  { sampleRow with rating := some 5, notes := none, stockLevel := 0 }

/-- Concrete fixture: a catalog entry matching queries against its
category. -/
def catRed : WineCatalogRow :=
  { id := 1, name := "House Pour", category := "Red", wine := none,
    subType := none, producer := none, region := none, country := none }

/-- Concrete fixture: a catalog entry whose only occurrence of
`"chianti"` is in the `wine` column. -/
def catWineOnly : WineCatalogRow :=
  { id := 2, name := "House Pour", category := "Red",
    wine := some "Chianti Classico", subType := none, producer := none,
    region := none, country := none }

/-- Concrete fixture: a catalog entry named `"Chianti"`, used to exhibit
the `_` wildcard behaviour of the unescaped search pattern. -/
def catMeta : WineCatalogRow :=
  { id := 3, name := "Chianti", category := "Red", wine := none,
    subType := none, producer := none, region := none, country := none }

/-- Concrete fixture: a CSV record with a name but no category under
either accepted header alias, and all optional columns absent. -/
def recNoCategory : CsvRecord := { NAME := some "Mystery Bottle" }
theorem applyUpdates_append (a b : List FieldUpdate) (r : WineRow) :
    applyUpdates (a ++ b) r = applyUpdates b (applyUpdates a r) :=
  List.foldl_append _ _ _ _

theorem mergeTailNotes (no : Option (Option String)) (r : WineRow) :
    applyUpdates (pushIf no .setNotes) r = { r with notes := no.getD r.notes } := by
  cases no <;> rfl

theorem mergeTailRating (ra : Option (Option Int)) (no : Option (Option String))
    (r : WineRow) :
    applyUpdates (pushIf ra .setRating ++ pushIf no .setNotes) r =
      { r with rating := ra.getD r.rating, notes := no.getD r.notes } := by
  cases ra with
  | none => exact mergeTailNotes no r
  | some v => exact mergeTailNotes no { r with rating := v }

theorem mergeTailImageUrl (iu : Option (Option String)) (ra : Option (Option Int))
    (no : Option (Option String)) (r : WineRow) :
    applyUpdates (pushIf iu .setImageUrl ++ (pushIf ra .setRating ++
      pushIf no .setNotes)) r =
      { r with imageUrl := iu.getD r.imageUrl, rating := ra.getD r.rating,
               notes := no.getD r.notes } := by
  cases iu with
  | none => exact mergeTailRating ra no r
  | some v => exact mergeTailRating ra no { r with imageUrl := v }

theorem mergeTailVintageStocks (vs : Option (List VintageStock))
    (iu : Option (Option String)) (ra : Option (Option Int))
    (no : Option (Option String)) (r : WineRow) :
    applyUpdates (pushIf vs .setVintageStocks ++ (pushIf iu .setImageUrl ++
      (pushIf ra .setRating ++ pushIf no .setNotes))) r =
      { r with vintageStocks := vs.getD r.vintageStocks,
               imageUrl := iu.getD r.imageUrl, rating := ra.getD r.rating,
               notes := no.getD r.notes } := by
  cases vs with
  | none => exact mergeTailImageUrl iu ra no r
  | some v => exact mergeTailImageUrl iu ra no { r with vintageStocks := v }

theorem mergeTailStockLevel (sl : Option Int) (vs : Option (List VintageStock))
    (iu : Option (Option String)) (ra : Option (Option Int))
    (no : Option (Option String)) (r : WineRow) :
    applyUpdates (pushIf sl .setStockLevel ++ (pushIf vs .setVintageStocks ++
      (pushIf iu .setImageUrl ++ (pushIf ra .setRating ++
      pushIf no .setNotes)))) r =
      { r with stockLevel := sl.getD r.stockLevel,
               vintageStocks := vs.getD r.vintageStocks,
               imageUrl := iu.getD r.imageUrl, rating := ra.getD r.rating,
               notes := no.getD r.notes } := by
  cases sl with
  | none => exact mergeTailVintageStocks vs iu ra no r
  | some v => exact mergeTailVintageStocks vs iu ra no { r with stockLevel := v }

theorem mergeTailCountry (co : Option (Option String)) (sl : Option Int)
    (vs : Option (List VintageStock)) (iu : Option (Option String))
    (ra : Option (Option Int)) (no : Option (Option String)) (r : WineRow) :
    applyUpdates (pushIf co .setCountry ++ (pushIf sl .setStockLevel ++
      (pushIf vs .setVintageStocks ++ (pushIf iu .setImageUrl ++
      (pushIf ra .setRating ++ pushIf no .setNotes))))) r =
      { r with country := co.getD r.country, stockLevel := sl.getD r.stockLevel,
               vintageStocks := vs.getD r.vintageStocks,
               imageUrl := iu.getD r.imageUrl, rating := ra.getD r.rating,
               notes := no.getD r.notes } := by
  cases co with
  | none => exact mergeTailStockLevel sl vs iu ra no r
  | some v => exact mergeTailStockLevel sl vs iu ra no { r with country := v }

theorem mergeTailRegion (re : Option (Option String)) (co : Option (Option String))
    (sl : Option Int) (vs : Option (List VintageStock))
    (iu : Option (Option String)) (ra : Option (Option Int))
    (no : Option (Option String)) (r : WineRow) :
    applyUpdates (pushIf re .setRegion ++ (pushIf co .setCountry ++
      (pushIf sl .setStockLevel ++ (pushIf vs .setVintageStocks ++
      (pushIf iu .setImageUrl ++ (pushIf ra .setRating ++
      pushIf no .setNotes)))))) r =
      { r with region := re.getD r.region, country := co.getD r.country,
               stockLevel := sl.getD r.stockLevel,
               vintageStocks := vs.getD r.vintageStocks,
               imageUrl := iu.getD r.imageUrl, rating := ra.getD r.rating,
               notes := no.getD r.notes } := by
  cases re with
  | none => exact mergeTailCountry co sl vs iu ra no r
  | some v => exact mergeTailCountry co sl vs iu ra no { r with region := v }

theorem mergeTailProducer (pr : Option (Option String))
    (re : Option (Option String)) (co : Option (Option String)) (sl : Option Int)
    (vs : Option (List VintageStock)) (iu : Option (Option String))
    (ra : Option (Option Int)) (no : Option (Option String)) (r : WineRow) :
    applyUpdates (pushIf pr .setProducer ++ (pushIf re .setRegion ++
      (pushIf co .setCountry ++ (pushIf sl .setStockLevel ++
      (pushIf vs .setVintageStocks ++ (pushIf iu .setImageUrl ++
      (pushIf ra .setRating ++ pushIf no .setNotes))))))) r =
      { r with producer := pr.getD r.producer, region := re.getD r.region,
               country := co.getD r.country, stockLevel := sl.getD r.stockLevel,
               vintageStocks := vs.getD r.vintageStocks,
               imageUrl := iu.getD r.imageUrl, rating := ra.getD r.rating,
               notes := no.getD r.notes } := by
  cases pr with
  | none => exact mergeTailRegion re co sl vs iu ra no r
  | some v => exact mergeTailRegion re co sl vs iu ra no { r with producer := v }

theorem mergeTailSubType (st : Option (Option String)) (pr : Option (Option String))
    (re : Option (Option String)) (co : Option (Option String)) (sl : Option Int)
    (vs : Option (List VintageStock)) (iu : Option (Option String))
    (ra : Option (Option Int)) (no : Option (Option String)) (r : WineRow) :
    applyUpdates (pushIf st .setSubType ++ (pushIf pr .setProducer ++
      (pushIf re .setRegion ++ (pushIf co .setCountry ++
      (pushIf sl .setStockLevel ++ (pushIf vs .setVintageStocks ++
      (pushIf iu .setImageUrl ++ (pushIf ra .setRating ++
      pushIf no .setNotes)))))))) r =
      { r with subType := st.getD r.subType, producer := pr.getD r.producer,
               region := re.getD r.region, country := co.getD r.country,
               stockLevel := sl.getD r.stockLevel,
               vintageStocks := vs.getD r.vintageStocks,
               imageUrl := iu.getD r.imageUrl, rating := ra.getD r.rating,
               notes := no.getD r.notes } := by
  cases st with
  | none => exact mergeTailProducer pr re co sl vs iu ra no r
  | some v => exact mergeTailProducer pr re co sl vs iu ra no { r with subType := v }

theorem mergeTailWine (wi : Option (Option String)) (st : Option (Option String))
    (pr : Option (Option String)) (re : Option (Option String))
    (co : Option (Option String)) (sl : Option Int)
    (vs : Option (List VintageStock)) (iu : Option (Option String))
    (ra : Option (Option Int)) (no : Option (Option String)) (r : WineRow) :
    applyUpdates (pushIf wi .setWine ++ (pushIf st .setSubType ++
      (pushIf pr .setProducer ++ (pushIf re .setRegion ++
      (pushIf co .setCountry ++ (pushIf sl .setStockLevel ++
      (pushIf vs .setVintageStocks ++ (pushIf iu .setImageUrl ++
      (pushIf ra .setRating ++ pushIf no .setNotes))))))))) r =
      { r with wine := wi.getD r.wine, subType := st.getD r.subType,
               producer := pr.getD r.producer, region := re.getD r.region,
               country := co.getD r.country, stockLevel := sl.getD r.stockLevel,
               vintageStocks := vs.getD r.vintageStocks,
               imageUrl := iu.getD r.imageUrl, rating := ra.getD r.rating,
               notes := no.getD r.notes } := by
  cases wi with
  | none => exact mergeTailSubType st pr re co sl vs iu ra no r
  | some v => exact mergeTailSubType st pr re co sl vs iu ra no { r with wine := v }

theorem mergeTailCategory (c : Option String) (wi : Option (Option String))
    (st : Option (Option String)) (pr : Option (Option String))
    (re : Option (Option String)) (co : Option (Option String)) (sl : Option Int)
    (vs : Option (List VintageStock)) (iu : Option (Option String))
    (ra : Option (Option Int)) (no : Option (Option String)) (r : WineRow) :
    applyUpdates (pushIf c .setCategory ++ (pushIf wi .setWine ++
      (pushIf st .setSubType ++ (pushIf pr .setProducer ++
      (pushIf re .setRegion ++ (pushIf co .setCountry ++
      (pushIf sl .setStockLevel ++ (pushIf vs .setVintageStocks ++
      (pushIf iu .setImageUrl ++ (pushIf ra .setRating ++
      pushIf no .setNotes)))))))))) r =
      { r with category := c.getD r.category, wine := wi.getD r.wine,
               subType := st.getD r.subType, producer := pr.getD r.producer,
               region := re.getD r.region, country := co.getD r.country,
               stockLevel := sl.getD r.stockLevel,
               vintageStocks := vs.getD r.vintageStocks,
               imageUrl := iu.getD r.imageUrl, rating := ra.getD r.rating,
               notes := no.getD r.notes } := by
  cases c with
  | none => exact mergeTailWine wi st pr re co sl vs iu ra no r
  | some v => exact mergeTailWine wi st pr re co sl vs iu ra no { r with category := v }

theorem mergeTailName (n : Option String) (c : Option String)
    (wi : Option (Option String)) (st : Option (Option String))
    (pr : Option (Option String)) (re : Option (Option String))
    (co : Option (Option String)) (sl : Option Int)
    (vs : Option (List VintageStock)) (iu : Option (Option String))
    (ra : Option (Option Int)) (no : Option (Option String)) (r : WineRow) :
    applyUpdates (pushIf n .setName ++ (pushIf c .setCategory ++
      (pushIf wi .setWine ++ (pushIf st .setSubType ++
      (pushIf pr .setProducer ++ (pushIf re .setRegion ++
      (pushIf co .setCountry ++ (pushIf sl .setStockLevel ++
      (pushIf vs .setVintageStocks ++ (pushIf iu .setImageUrl ++
      (pushIf ra .setRating ++ pushIf no .setNotes))))))))))) r =
      { r with name := n.getD r.name, category := c.getD r.category,
               wine := wi.getD r.wine, subType := st.getD r.subType,
               producer := pr.getD r.producer, region := re.getD r.region,
               country := co.getD r.country, stockLevel := sl.getD r.stockLevel,
               vintageStocks := vs.getD r.vintageStocks,
               imageUrl := iu.getD r.imageUrl, rating := ra.getD r.rating,
               notes := no.getD r.notes } := by
  cases n with
  | none => exact mergeTailCategory c wi st pr re co sl vs iu ra no r
  | some v => exact mergeTailCategory c wi st pr re co sl vs iu ra no { r with name := v }

theorem applyUpdates_buildUpdates_eq_mergeRow (w : WinePayload) (r : WineRow) :
    applyUpdates (buildUpdates w) r = mergeRow w r := by
  unfold buildUpdates mergeRow
  exact mergeTailName w.name w.category w.wine w.subType w.producer w.region
    w.country w.stockLevel w.vintageStocks w.imageUrl w.rating w.notes r

theorem insertAll_length (nextId : Nat) (records : List CsvRecord) :
    (insertAll nextId records).length = records.length := by
  induction records generalizing nextId with
  | nil => rfl
  | cons rec rest ih => simp [insertAll, ih]

theorem likeMatch_percent (ps : List Char) (s : List Char) :
    likeMatch ('%' :: ps) s = s.tails.any (fun t => likeMatch ps t) := by
  simp [likeMatch]

theorem likeMatch_plain_nil (p : Char) (ps : List Char) (hp : p ≠ '%') :
    likeMatch (p :: ps) [] = false := by
  simp [likeMatch, hp]

theorem likeMatch_plain_cons (p : Char) (ps : List Char) (c : Char)
    (s : List Char) (hp : p ≠ '%') :
    likeMatch (p :: ps) (c :: s) =
      ((p == '_' || p.toLower == c.toLower) && likeMatch ps s) := by
  simp [likeMatch, hp]

theorem likeMatch_plain_starts (q : List Char)
    (hq : ∀ ch ∈ q, ch ≠ '%' ∧ ch ≠ '_') (s : List Char) :
    likeMatch (q ++ ['%']) s = true ↔
      q.map Char.toLower <+: s.map Char.toLower := by
  induction q generalizing s with
  | nil =>
    simp only [List.nil_append, List.map_nil, List.nil_prefix, iff_true]
    rw [likeMatch_percent]
    simp only [List.any_eq_true, List.mem_tails]
    exact ⟨[], List.nil_suffix, rfl⟩
  | cons a q ih =>
    have ha := hq a (List.mem_cons_self a q)
    cases s with
    | nil =>
      rw [List.cons_append, likeMatch_plain_nil a _ ha.1]
      simp
    | cons c s2 =>
      rw [List.cons_append, likeMatch_plain_cons a _ c s2 ha.1]
      have ha2 : (a == '_') = false := by
        simp [ha.2]
      simp only [ha2, Bool.false_or, Bool.and_eq_true, beq_iff_eq,
        List.map_cons, List.cons_prefix_cons]
      rw [ih (fun ch hch => hq ch (List.mem_cons_of_mem a hch))]

theorem likeMatch_wrapped (q : List Char)
    (hq : ∀ ch ∈ q, ch ≠ '%' ∧ ch ≠ '_') (s : List Char) :
    likeMatch ('%' :: (q ++ ['%'])) s = true ↔
      q.map Char.toLower <:+: s.map Char.toLower := by
  induction s with
  | nil =>
    rw [likeMatch_percent]
    show (likeMatch (q ++ ['%']) [] || false) = true ↔ _
    rw [Bool.or_false, likeMatch_plain_starts q hq]
    simp
  | cons c s2 ih =>
    rw [likeMatch_percent, List.tails_cons]
    show (likeMatch (q ++ ['%']) (c :: s2) ||
      (List.tails s2).any (fun t => likeMatch (q ++ ['%']) t)) = true ↔ _
    rw [← likeMatch_percent, Bool.or_eq_true, likeMatch_plain_starts q hq, ih]
    rw [List.map_cons, List.infix_cons_iff]

theorem ilike_wrapped (q s : String)
    (hq : ∀ ch ∈ q.toList, ch ≠ '%' ∧ ch ≠ '_') :
    ilike ("%" ++ q ++ "%") s = true ↔ specContainsCI q s := by
  have hpat : ("%" ++ q ++ "%").toList = '%' :: (q.toList ++ ['%']) := by
    show ("%" ++ q ++ "%").data = '%' :: (q.data ++ ['%'])
    rw [String.data_append, String.data_append]
    rfl
  rw [ilike, hpat]
  exact likeMatch_wrapped q.toList hq s.toList

theorem ilikeOpt_wrapped (q : String) (o : Option String)
    (hq : ∀ ch ∈ q.toList, ch ≠ '%' ∧ ch ≠ '_') :
    ilikeOpt ("%" ++ q ++ "%") o = true ↔ specContainsCIOpt q o := by
  cases o with
  | none => simp [ilikeOpt, specContainsCIOpt]
  | some s => exact ilike_wrapped q s hq

theorem rowMatches_eq_true {r : WineRow} {id : Nat} {u : String} :
    rowMatches r id u = true ↔ r.id = id ∧ r.userId = u := by
  simp [rowMatches]

theorem find?_rowMatches_eq_some (s : List WineRow) (r : WineRow) (id : Nat)
    (u : String) (hnd : (s.map WineRow.id).Nodup) (hr : r ∈ s)
    (hid : r.id = id) (hu : r.userId = u) :
    s.find? (fun x => rowMatches x id u) = some r := by
  induction s with
  | nil => cases hr
  | cons a t ih =>
    simp only [List.map_cons, List.nodup_cons] at hnd
    rw [List.find?_cons]
    by_cases hpa : rowMatches a id u = true
    · rw [hpa]
      rcases List.mem_cons.mp hr with h1 | h1
      · rw [h1]
      · exfalso
        obtain ⟨haid, _⟩ := rowMatches_eq_true.mp hpa
        apply hnd.1
        rw [haid, ← hid]
        exact List.mem_map_of_mem _ h1
    · rw [Bool.not_eq_true] at hpa
      rw [hpa]
      have hr2 : r ∈ t := by
        rcases List.mem_cons.mp hr with h1 | h1
        · exact absurd (h1 ▸ rowMatches_eq_true.mpr ⟨hid, hu⟩) (by simp [hpa])
        · exact h1
      exact ih hnd.2 hr2

theorem updateWine_of_no_match (s : List WineRow) (id : Nat) (w : WinePayload)
    (u : String) (h : ∀ x ∈ s, rowMatches x id u = false) :
    updateWine s id w u = (s, none) := by
  have hfind : s.find? (fun x => rowMatches x id u) = none :=
    List.find?_eq_none.mpr (fun x hx => by simp [h x hx])
  have hmap : s.map
      (fun x => if rowMatches x id u then applyUpdates (buildUpdates w) x else x) = s := by
    have h1 : s.map
        (fun x => if rowMatches x id u then applyUpdates (buildUpdates w) x else x) =
        s.map (fun x => x) :=
      List.map_congr_left (fun x hx => by simp [h x hx])
    simpa using h1
  by_cases he : (buildUpdates w).isEmpty
  · simp [updateWine, he, hfind]
  · simp [updateWine, he, hfind, hmap]

/-- C1 — for every stored record and every partial payload, the row the
single UPDATE statement of `updateWine` stores (and which appears in the
post-state) keeps each stored value whose payload field is absent and
takes exactly the payload value (empty, zero or `null` included) for each
present field: projection-wise it is `payload.f.getD stored.f`. -/
theorem updateWine_absent_preserves_present_overwrites
    (s : List WineRow) (id : Nat) (u : String) (w : WinePayload) (r : WineRow)
    (hr : r ∈ s) (hid : r.id = id) (hu : r.userId = u) :
    applyUpdates (buildUpdates w) r ∈ (updateWine s id w u).1 ∧
    (applyUpdates (buildUpdates w) r).name = w.name.getD r.name ∧
    (applyUpdates (buildUpdates w) r).category = w.category.getD r.category ∧
    (applyUpdates (buildUpdates w) r).wine = w.wine.getD r.wine ∧
    (applyUpdates (buildUpdates w) r).subType = w.subType.getD r.subType ∧
    (applyUpdates (buildUpdates w) r).producer = w.producer.getD r.producer ∧
    (applyUpdates (buildUpdates w) r).region = w.region.getD r.region ∧
    (applyUpdates (buildUpdates w) r).country = w.country.getD r.country ∧
    (applyUpdates (buildUpdates w) r).stockLevel = w.stockLevel.getD r.stockLevel ∧
    (applyUpdates (buildUpdates w) r).vintageStocks =
      w.vintageStocks.getD r.vintageStocks ∧
    (applyUpdates (buildUpdates w) r).imageUrl = w.imageUrl.getD r.imageUrl ∧
    (applyUpdates (buildUpdates w) r).rating = w.rating.getD r.rating ∧
    (applyUpdates (buildUpdates w) r).notes = w.notes.getD r.notes := by
  have hm : rowMatches r id u = true := rowMatches_eq_true.mpr ⟨hid, hu⟩
  constructor
  · by_cases he : (buildUpdates w).isEmpty
    · rw [List.isEmpty_iff.mp he]
      simp only [updateWine, List.isEmpty_iff.mp he]
      simpa using hr
    · simp only [updateWine, he, Bool.false_eq_true, if_false]
      have h1 := List.mem_map_of_mem
        (fun x => if rowMatches x id u then applyUpdates (buildUpdates w) x else x) hr
      simpa [hm] using h1
  · rw [applyUpdates_buildUpdates_eq_mergeRow]
    exact ⟨rfl, rfl, rfl, rfl, rfl, rfl, rfl, rfl, rfl, rfl, rfl, rfl⟩

/-- C1 witness at a concrete state and payload. -/
theorem updateWine_absent_preserves_present_overwrites_witness :
    (sampleRow ∈ sampleState ∧ sampleRow.id = 1 ∧ sampleRow.userId = "alice") ∧
    (applyUpdates (buildUpdates samplePayload) sampleRow ∈
      (updateWine sampleState 1 samplePayload "alice").1 ∧
    (applyUpdates (buildUpdates samplePayload) sampleRow).name =
      samplePayload.name.getD sampleRow.name ∧
    (applyUpdates (buildUpdates samplePayload) sampleRow).category =
      samplePayload.category.getD sampleRow.category ∧
    (applyUpdates (buildUpdates samplePayload) sampleRow).wine =
      samplePayload.wine.getD sampleRow.wine ∧
    (applyUpdates (buildUpdates samplePayload) sampleRow).subType =
      samplePayload.subType.getD sampleRow.subType ∧
    (applyUpdates (buildUpdates samplePayload) sampleRow).producer =
      samplePayload.producer.getD sampleRow.producer ∧
    (applyUpdates (buildUpdates samplePayload) sampleRow).region =
      samplePayload.region.getD sampleRow.region ∧
    (applyUpdates (buildUpdates samplePayload) sampleRow).country =
      samplePayload.country.getD sampleRow.country ∧
    (applyUpdates (buildUpdates samplePayload) sampleRow).stockLevel =
      samplePayload.stockLevel.getD sampleRow.stockLevel ∧
    (applyUpdates (buildUpdates samplePayload) sampleRow).vintageStocks =
      samplePayload.vintageStocks.getD sampleRow.vintageStocks ∧
    (applyUpdates (buildUpdates samplePayload) sampleRow).imageUrl =
      samplePayload.imageUrl.getD sampleRow.imageUrl ∧
    (applyUpdates (buildUpdates samplePayload) sampleRow).rating =
      samplePayload.rating.getD sampleRow.rating ∧
    (applyUpdates (buildUpdates samplePayload) sampleRow).notes =
      samplePayload.notes.getD sampleRow.notes) :=
  ⟨⟨by decide, by decide, by decide⟩,
   updateWine_absent_preserves_present_overwrites sampleState 1 "alice"
     samplePayload sampleRow (by decide) (by decide) (by decide)⟩

/-- C2 — the current `updateWine` performs merge and ownership check as
one single conditional UPDATE statement: exactly one backend transition
is exposed, every exposed state still holds a row with each pre-state
row's id, owner and creation timestamp (never a deleted-but-not-yet-
reinserted state), and an unsuccessful call (no matching row, result
`none`) leaves the stored state entirely unchanged. -/
theorem updateWine_atomic_single_statement (s : List WineRow) (id : Nat)
    (w : WinePayload) (u : String) :
    updateWineStates s id w u = [(updateWine s id w u).1] ∧
    (∀ t ∈ updateWineStates s id w u, ∀ r ∈ s,
      ∃ x ∈ t, x.id = r.id ∧ x.userId = r.userId ∧ x.createdAt = r.createdAt) ∧
    ((updateWine s id w u).2 = none → (updateWine s id w u).1 = s) := by
  refine ⟨rfl, ?_, ?_⟩
  · intro t ht r hr
    have ht2 : t = (updateWine s id w u).1 := by
      simpa [updateWineStates] using ht
    subst ht2
    by_cases he : (buildUpdates w).isEmpty
    · refine ⟨r, ?_, rfl, rfl, rfl⟩
      simp [updateWine, he, hr]
    · simp only [updateWine, he, Bool.false_eq_true, if_false]
      by_cases hm : rowMatches r id u = true
      · refine ⟨applyUpdates (buildUpdates w) r, ?_, ?_, ?_, ?_⟩
        · have h1 := List.mem_map_of_mem
            (fun x => if rowMatches x id u then applyUpdates (buildUpdates w) x else x) hr
          simpa [hm] using h1
        · rw [applyUpdates_buildUpdates_eq_mergeRow]; rfl
        · rw [applyUpdates_buildUpdates_eq_mergeRow]; rfl
        · rw [applyUpdates_buildUpdates_eq_mergeRow]; rfl
      · refine ⟨r, ?_, rfl, rfl, rfl⟩
        have h1 := List.mem_map_of_mem
          (fun x => if rowMatches x id u then applyUpdates (buildUpdates w) x else x) hr
        rw [Bool.not_eq_true] at hm
        simpa [hm] using h1
  · intro h
    by_cases he : (buildUpdates w).isEmpty
    · simp [updateWine, he]
    · simp only [updateWine, he, Bool.false_eq_true, if_false] at h ⊢
      have hfind : s.find? (fun x => rowMatches x id u) = none := by
        simpa using h
      have hno : ∀ x ∈ s, rowMatches x id u = false := by
        intro x hx
        have := List.find?_eq_none.mp hfind x hx
        simpa using this
      have h1 : s.map
          (fun x => if rowMatches x id u then applyUpdates (buildUpdates w) x else x) =
          s.map (fun x => x) :=
        List.map_congr_left (fun x hx => by simp [hno x hx])
      simpa using h1

theorem rowMatches_ne_owner (s : List WineRow) (R : WineRow) (A B : String)
    (hnd : (s.map WineRow.id).Nodup) (hR : R ∈ s) (hA : R.userId = A)
    (hB : B ≠ A) : ∀ x ∈ s, rowMatches x R.id B = false := by
  intro x hx
  cases hxb : rowMatches x R.id B with
  | false => rfl
  | true =>
    obtain ⟨hxid, hxu⟩ := rowMatches_eq_true.mp hxb
    have hxR : x = R := List.inj_on_of_nodup_map hnd hx hR hxid
    exact absurd (by rw [← hxu, hxR, hA]) hB

/-- C4 — every inventory operation is ownership-scoped at the storage
boundary: for a record R owned by A and any other caller B, `getWineById`
returns not-found, `updateWine` returns not-found and leaves the state
unchanged, `deleteWine` returns `false` and removes nothing, and R never
appears in B's `getWines` or `getWinesByCategory` listings. -/
theorem inventory_ops_owner_scoped (s : List WineRow) (R : WineRow)
    (A B : String) (w : WinePayload) (hnd : (s.map WineRow.id).Nodup)
    (hR : R ∈ s) (hA : R.userId = A) (hB : B ≠ A) :
    getWineById s R.id B = none ∧
    updateWine s R.id w B = (s, none) ∧
    deleteWine s R.id B = (s, false) ∧
    R ∉ getWines s B ∧
    R ∉ getWinesByCategory s R.category B := by
  have hno := rowMatches_ne_owner s R A B hnd hR hA hB
  refine ⟨?_, ?_, ?_, ?_, ?_⟩
  · exact List.find?_eq_none.mpr (fun x hx => by simp [hno x hx])
  · exact updateWine_of_no_match s R.id w B hno
  · rw [deleteWine, Prod.mk.injEq]
    constructor
    · exact List.filter_eq_self.mpr (fun x hx => by simp [hno x hx])
    · exact List.any_eq_false.mpr (fun x hx => by simp [hno x hx])
  · intro hmem
    have h2 := (List.mem_filter.mp hmem).2
    have h3 : R.userId = B := by simpa using h2
    rw [hA] at h3
    exact hB h3.symm
  · intro hmem
    have h2 := (List.mem_filter.mp hmem).2
    simp only [Bool.and_eq_true, beq_iff_eq] at h2
    have h3 := h2.2
    rw [hA] at h3
    exact hB h3.symm

/-- C4 witness at a concrete one-row state owned by `"alice"` with the
caller `"bob"`. -/
theorem inventory_ops_owner_scoped_witness :
    ((sampleState.map WineRow.id).Nodup ∧ sampleRow ∈ sampleState ∧
      sampleRow.userId = "alice" ∧ "bob" ≠ "alice") ∧
    (getWineById sampleState sampleRow.id "bob" = none ∧
    updateWine sampleState sampleRow.id samplePayload "bob" = (sampleState, none) ∧
    deleteWine sampleState sampleRow.id "bob" = (sampleState, false) ∧
    sampleRow ∉ getWines sampleState "bob" ∧
    sampleRow ∉ getWinesByCategory sampleState sampleRow.category "bob") :=
  ⟨⟨by decide, by decide, by decide, by decide⟩,
   inventory_ops_owner_scoped sampleState sampleRow "alice" "bob" samplePayload
     (by decide) (by decide) (by decide) (by decide)⟩

/-- C5 — the empty payload `{}` builds zero SET clauses, so `updateWine`
succeeds as a pure no-op: the state is unchanged and the current record
(creation timestamp included) is returned as found; `none` (not-found)
is returned exactly when no row with that id and owner exists. -/
theorem updateWine_empty_payload_noop (s : List WineRow) (r : WineRow)
    (id : Nat) (u : String) (hnd : (s.map WineRow.id).Nodup) (hr : r ∈ s)
    (hid : r.id = id) (hu : r.userId = u) :
    updateWine s id emptyPayload u = (s, some r) ∧
    ∀ s2 : List WineRow, (∀ x ∈ s2, rowMatches x id u = false) →
      updateWine s2 id emptyPayload u = (s2, none) := by
  constructor
  · have h1 : updateWine s id emptyPayload u =
        (s, s.find? (fun x => rowMatches x id u)) := rfl
    rw [h1, find?_rowMatches_eq_some s r id u hnd hr hid hu]
  · intro s2 h2
    exact updateWine_of_no_match s2 id emptyPayload u h2

/-- C5 witness: the empty payload on the sample state returns the stored
row unchanged, and on a state with no matching row returns not-found. -/
theorem updateWine_empty_payload_noop_witness :
    ((sampleState.map WineRow.id).Nodup ∧ sampleRow ∈ sampleState ∧
      sampleRow.id = 1 ∧ sampleRow.userId = "alice") ∧
    (updateWine sampleState 1 emptyPayload "alice" = (sampleState, some sampleRow) ∧
    ∀ s2 : List WineRow, (∀ x ∈ s2, rowMatches x 1 "alice" = false) →
      updateWine s2 1 emptyPayload "alice" = (s2, none)) :=
  ⟨⟨by decide, by decide, by decide, by decide⟩,
   updateWine_empty_payload_noop sampleState sampleRow 1 "alice"
     (by decide) (by decide) (by decide) (by decide)⟩

/-- C9 — frame property of a successful `updateWine`: the returned record
keeps the matched row's id, owner and creation timestamp (only SET
clauses for the twelve mutable fields are ever assembled), and the
id/owner/creation-timestamp projection of the whole state is unchanged. -/
theorem updateWine_frame_immutable_fields (s : List WineRow) (id : Nat)
    (w : WinePayload) (u : String) (m : WineRow)
    (h : (updateWine s id w u).2 = some m) :
    (∃ r, r ∈ s ∧ r.id = id ∧ r.userId = u ∧
      m.id = r.id ∧ m.userId = r.userId ∧ m.createdAt = r.createdAt) ∧
    (updateWine s id w u).1.map (fun x => (x.id, x.userId, x.createdAt)) =
      s.map (fun x => (x.id, x.userId, x.createdAt)) := by
  constructor
  · by_cases he : (buildUpdates w).isEmpty
    · simp only [updateWine, he, if_true] at h
      have hpm : rowMatches m id u = true := by
        simpa using List.find?_some h
      obtain ⟨hid, hu⟩ := rowMatches_eq_true.mp hpm
      exact ⟨m, List.mem_of_find?_eq_some h, hid, hu, rfl, rfl, rfl⟩
    · simp only [updateWine, he, Bool.false_eq_true, if_false,
        Option.map_eq_some'] at h
      obtain ⟨r, hfr, hm⟩ := h
      have hpr : rowMatches r id u = true := by
        simpa using List.find?_some hfr
      obtain ⟨hid, hu⟩ := rowMatches_eq_true.mp hpr
      refine ⟨r, List.mem_of_find?_eq_some hfr, hid, hu, ?_, ?_, ?_⟩ <;>
        rw [← hm, applyUpdates_buildUpdates_eq_mergeRow] <;> rfl
  · by_cases he : (buildUpdates w).isEmpty
    · simp [updateWine, he]
    · simp only [updateWine, he, Bool.false_eq_true, if_false, List.map_map]
      refine List.map_congr_left (fun x hx => ?_)
      by_cases hm : rowMatches x id u = true
      · simp only [Function.comp_apply, hm, if_true,
          applyUpdates_buildUpdates_eq_mergeRow]
        rfl
      · rw [Bool.not_eq_true] at hm
        simp [Function.comp_apply, hm]

/-- C9 witness at the sample state and payload. -/
theorem updateWine_frame_immutable_fields_witness :
    ((updateWine sampleState 1 samplePayload "alice").2 = some sampleUpdated) ∧
    ((∃ r, r ∈ sampleState ∧ r.id = 1 ∧ r.userId = "alice" ∧
      sampleUpdated.id = r.id ∧ sampleUpdated.userId = r.userId ∧
      sampleUpdated.createdAt = r.createdAt) ∧
    (updateWine sampleState 1 samplePayload "alice").1.map
        (fun x => (x.id, x.userId, x.createdAt)) =
      sampleState.map (fun x => (x.id, x.userId, x.createdAt))) :=
  ⟨by decide,
   updateWine_frame_immutable_fields sampleState 1 samplePayload "alice"
     sampleUpdated (by decide)⟩

/-- C3 — the count-gated importer is idempotent: on any non-empty catalog
it skips the entire import reporting zero imported and leaves every
existing row unchanged, and running it twice (from any starting state)
leaves the state of the first run untouched. -/
theorem loadWineCatalogFromCSV_idempotent (c : List WineCatalogRow)
    (records : List CsvRecord) (h : c ≠ []) :
    loadWineCatalogFromCSV c records = (c, 0) ∧
    ∀ c2 : List WineCatalogRow,
      (loadWineCatalogFromCSV (loadWineCatalogFromCSV c2 records).1 records).1 =
        (loadWineCatalogFromCSV c2 records).1 := by
  have hskip : ∀ d : List WineCatalogRow, d ≠ [] →
      loadWineCatalogFromCSV d records = (d, 0) := by
    intro d hd
    have hpos : d.length > 0 := List.length_pos.mpr hd
    simp [loadWineCatalogFromCSV, hpos]
  refine ⟨hskip c h, ?_⟩
  intro c2
  by_cases h2 : c2 = []
  · subst h2
    have hfirst : loadWineCatalogFromCSV [] records =
        (insertAll 1 records, (insertAll 1 records).length) := by
      simp [loadWineCatalogFromCSV]
    rw [hfirst]
    show (loadWineCatalogFromCSV (insertAll 1 records) records).1 =
      insertAll 1 records
    by_cases hrec : records = []
    · subst hrec
      simp [loadWineCatalogFromCSV, insertAll]
    · have hne : insertAll 1 records ≠ [] := by
        intro hcon
        have := insertAll_length 1 records
        rw [hcon] at this
        exact hrec (List.length_eq_zero.mp this.symm)
      rw [hskip _ hne]
  · simp [hskip c2 h2]

/-- C3 witness: a one-entry catalog skips the import and reports zero. -/
theorem loadWineCatalogFromCSV_idempotent_witness :
    (([catRed] : List WineCatalogRow) ≠ []) ∧
    (loadWineCatalogFromCSV [catRed] [recNoCategory] = ([catRed], 0) ∧
    ∀ c2 : List WineCatalogRow,
      (loadWineCatalogFromCSV (loadWineCatalogFromCSV c2 [recNoCategory]).1
        [recNoCategory]).1 =
        (loadWineCatalogFromCSV c2 [recNoCategory]).1) :=
  ⟨by decide,
   loadWineCatalogFromCSV_idempotent [catRed] [recNoCategory] (by decide)⟩

/-- C8 — a record whose category column is absent or empty under both
accepted header aliases is still imported (not dropped) with the sentinel
category `"Other"`, its omitted optional text columns default to `null`,
and the bulk load of an empty catalog imports one row per source
record. -/
theorem loadWineCatalogFromCSV_category_sentinel
    (rec : CsvRecord) (n : Nat)
    (hT : rec.TYPE = none ∨ rec.TYPE = some "")
    (hcat : rec.categoryL = none ∨ rec.categoryL = some "")
    (hw1 : rec.WINE = none ∨ rec.WINE = some "")
    (hw2 : rec.wineL = none ∨ rec.wineL = some "")
    (hs1 : rec.SUB_TYPE = none ∨ rec.SUB_TYPE = some "")
    (hs2 : rec.subTypeL = none ∨ rec.subTypeL = some "")
    (hp1 : rec.PRODUCER = none ∨ rec.PRODUCER = some "")
    (hp2 : rec.producerL = none ∨ rec.producerL = some "")
    (hr1 : rec.REGION = none ∨ rec.REGION = some "")
    (hr2 : rec.regionL = none ∨ rec.regionL = some "")
    (hc1 : rec.COUNTRY = none ∨ rec.COUNTRY = some "")
    (hc2 : rec.countryL = none ∨ rec.countryL = some "") :
    (mapRecord n rec).category = "Other" ∧
    (mapRecord n rec).wine = none ∧
    (mapRecord n rec).subType = none ∧
    (mapRecord n rec).producer = none ∧
    (mapRecord n rec).region = none ∧
    (mapRecord n rec).country = none ∧
    (loadWineCatalogFromCSV [] [rec]).1 = [mapRecord 1 rec] ∧
    ∀ records : List CsvRecord,
      (loadWineCatalogFromCSV [] records).1.length = records.length := by
  have htr : ∀ o : Option String, (o = none ∨ o = some "") → truthy o = none := by
    intro o ho
    rcases ho with hcase | hcase <;> simp [truthy, hcase]
  refine ⟨?_, ?_, ?_, ?_, ?_, ?_, ?_, ?_⟩
  · simp [mapRecord, htr _ hT, htr _ hcat]
  · simp [mapRecord, htr _ hw1, htr _ hw2]
  · simp [mapRecord, htr _ hs1, htr _ hs2]
  · simp [mapRecord, htr _ hp1, htr _ hp2]
  · simp [mapRecord, htr _ hr1, htr _ hr2]
  · simp [mapRecord, htr _ hc1, htr _ hc2]
  · simp [loadWineCatalogFromCSV, insertAll]
  · intro records
    simp [loadWineCatalogFromCSV, insertAll_length]

/-- C8 witness at a record that has a name but no category or optional
columns. -/
theorem loadWineCatalogFromCSV_category_sentinel_witness :
    (recNoCategory.TYPE = none ∨ recNoCategory.TYPE = some "") ∧
    ((mapRecord 7 recNoCategory).category = "Other" ∧
    (mapRecord 7 recNoCategory).wine = none ∧
    (mapRecord 7 recNoCategory).subType = none ∧
    (mapRecord 7 recNoCategory).producer = none ∧
    (mapRecord 7 recNoCategory).region = none ∧
    (mapRecord 7 recNoCategory).country = none ∧
    (loadWineCatalogFromCSV [] [recNoCategory]).1 = [mapRecord 1 recNoCategory] ∧
    ∀ records : List CsvRecord,
      (loadWineCatalogFromCSV [] records).1.length = records.length) :=
  ⟨by decide,
   loadWineCatalogFromCSV_category_sentinel recNoCategory 7 (by decide)
     (by decide) (by decide) (by decide) (by decide) (by decide) (by decide)
     (by decide) (by decide) (by decide) (by decide) (by decide)⟩

/-- C7 — an empty or whitespace-only query makes `searchWineCatalog`
return the full catalog, exactly as `getWineCatalog`. -/
theorem searchWineCatalog_blank_query_full_catalog (c : List WineCatalogRow)
    (query : String) (h : ∀ ch ∈ query.toList, ch.isWhitespace) :
    searchWineCatalog c query = getWineCatalog c := by
  have hb : query.toList.all Char.isWhitespace = true :=
    List.all_eq_true.mpr (fun ch hch => h ch hch)
  unfold searchWineCatalog
  rw [hb]
  simp

/-- C7 witness at the whitespace-only query `"  "`. -/
theorem searchWineCatalog_blank_query_full_catalog_witness :
    (∀ ch ∈ "  ".toList, ch.isWhitespace) ∧
    searchWineCatalog [catRed] "  " = getWineCatalog [catRed] :=
  ⟨by decide,
   searchWineCatalog_blank_query_full_catalog [catRed] "  " (by decide)⟩

/-- C6 counterexample — the claim's seven-field coverage fails: this
catalog entry matches the query `"chianti"` on its `wine` field under the
specification's predicate, yet `searchWineCatalog` does not return it,
because the implementation never searches the `wine` (or sub-type)
column. -/
theorem searchWineCatalog_wine_field_not_searched :
    specMatchesSevenFields "chianti" catWineOnly ∧
    catWineOnly ∉ searchWineCatalog [catWineOnly] "chianti" :=
  ⟨by decide, by decide⟩

/-- C6 (amended) — for every non-blank query free of the SQL LIKE
metacharacters `%` and `_`, `searchWineCatalog` returns an entry iff at
least one of the five searched fields name, category, producer, region,
country case-insensitively contains the query as a substring (`NULL`
fields never match). -/
theorem searchWineCatalog_five_field_coverage (c : List WineCatalogRow)
    (q : String) (e : WineCatalogRow)
    (hblank : q.toList.all Char.isWhitespace = false)
    (hmeta : ∀ ch ∈ q.toList, ch ≠ '%' ∧ ch ≠ '_') :
    e ∈ searchWineCatalog c q ↔
      e ∈ c ∧ (specContainsCI q e.name ∨ specContainsCI q e.category ∨
        specContainsCIOpt q e.producer ∨ specContainsCIOpt q e.region ∨
        specContainsCIOpt q e.country) := by
  simp only [searchWineCatalog, hblank, Bool.false_eq_true, if_false,
    List.mem_filter]
  refine and_congr_right (fun _ => ?_)
  simp only [Bool.or_eq_true]
  rw [ilike_wrapped q e.name hmeta, ilike_wrapped q e.category hmeta,
    ilikeOpt_wrapped q e.producer hmeta, ilikeOpt_wrapped q e.region hmeta,
    ilikeOpt_wrapped q e.country hmeta]

/-- C6 (amended) witness at the query `"red"` matching the category
field. -/
theorem searchWineCatalog_five_field_coverage_witness :
    ("red".toList.all Char.isWhitespace = false ∧
      (∀ ch ∈ "red".toList, ch ≠ '%' ∧ ch ≠ '_')) ∧
    (catRed ∈ searchWineCatalog [catRed] "red" ↔
      catRed ∈ [catRed] ∧ (specContainsCI "red" catRed.name ∨
        specContainsCI "red" catRed.category ∨
        specContainsCIOpt "red" catRed.producer ∨
        specContainsCIOpt "red" catRed.region ∨
        specContainsCIOpt "red" catRed.country)) :=
  ⟨⟨by decide, by decide⟩,
   searchWineCatalog_five_field_coverage [catRed] "red" catRed (by decide)
     (by decide)⟩

/-- C10 — the raw query is embedded between `%` characters with no
escaping of LIKE metacharacters: a metachar-free query matches exactly by
case-insensitive literal substring containment, while the concrete query
`"Chi_nti"` (whose `_` acts as a single-character wildcard) is returned
for an entry that no field literally contains. -/
theorem searchWineCatalog_unescaped_metachars (q s : String)
    (hmeta : ∀ ch ∈ q.toList, ch ≠ '%' ∧ ch ≠ '_') :
    (ilike ("%" ++ q ++ "%") s = true ↔ specContainsCI q s) ∧
    (searchWineCatalog [catMeta] "Chi_nti" = [catMeta] ∧
      ¬ specMatchesSevenFields "Chi_nti" catMeta) :=
  ⟨ilike_wrapped q s hmeta, by decide, by decide⟩

/-- C10 witness at the metachar-free query `"abc"`. -/
theorem searchWineCatalog_unescaped_metachars_witness :
    (∀ ch ∈ "abc".toList, ch ≠ '%' ∧ ch ≠ '_') ∧
    ((ilike ("%" ++ "abc" ++ "%") "xAbCy" = true ↔
      specContainsCI "abc" "xAbCy") ∧
    (searchWineCatalog [catMeta] "Chi_nti" = [catMeta] ∧
      ¬ specMatchesSevenFields "Chi_nti" catMeta)) :=
  ⟨by decide, searchWineCatalog_unescaped_metachars "abc" "xAbCy" (by decide)⟩
